import Mathlib

/-!
Verification development for the MODULUS repository.

The repository ships a React/TypeScript frontend (under `src/frontend` and the
unnamed source parts) together with documentation of a FastAPI backend; the
backend service layer itself (job store, transformation pipeline, suggestion
engine) is not part of the source tree.  Accordingly this file contains two
kinds of definitions:

* shallow embeddings of frontend functions, translated directly from the
  TypeScript source (status display helpers, job list filters, dashboard
  statistics);
* models of the backend components, each marked `Modelled from the spec:` in
  its doc comment, faithful to the specification's wording (job lifecycle,
  transformation pipeline, suggestion engine).

Numbers are modelled as exact rationals.
-/

namespace Modulus

/-- Decidable equality on `Except`, so that concrete pipeline runs can be
checked by `decide`. -/
instance {ε α : Type} [DecidableEq ε] [DecidableEq α] : DecidableEq (Except ε α) :=
  fun x y =>
    match x, y with
    | .ok a, .ok b =>
      if h : a = b then .isTrue (congrArg Except.ok h)
      else .isFalse (fun hc => h (Except.ok.inj hc))
    | .ok _, .error _ => .isFalse (fun hc => Except.noConfusion hc)
    | .error _, .ok _ => .isFalse (fun hc => Except.noConfusion hc)
    | .error e, .error f =>
      if h : e = f then .isTrue (congrArg Except.error h)
      else .isFalse (fun hc => h (Except.error.inj hc))

/-! ### Frontend data model (src/unnamed/part_000, pages/Training.tsx) -/

/-- The `TrainingJob` record exchanged with the jobs endpoint
(`src/unnamed/part_000` lines 3-13, `Training.tsx` lines 28-38).  The status
field is a string at runtime; the TypeScript union type merely annotates it. -/
structure TrainingJob where
  job_id : String
  status : String
  dataset_name : String
  algorithm : String
  target_column : String
  task_type : String
  accuracy : Option Rat := none
  error : Option String := none
  created_at : String := ""
deriving DecidableEq, Repr

namespace Training

/-- `getStatusIcon` from `Training.tsx` lines 199-210; the returned JSX element
is rendered here as its icon name and class string. -/
def getStatusIcon (status : String) : String :=
  if status = "completed" then "CheckCircle h-4 w-4 text-green-500"
  else if status = "failed" then "XCircle h-4 w-4 text-red-500"
  else if status = "running" then "Clock h-4 w-4 text-blue-500 animate-pulse"
  else "AlertCircle h-4 w-4 text-yellow-500"

/-- `getStatusColor` from `Training.tsx` lines 212-223. -/
def getStatusColor (status : String) : String :=
  if status = "completed" then "bg-green-500/20 text-green-400 border-green-500/30"
  else if status = "failed" then "bg-red-500/20 text-red-400 border-red-500/30"
  else if status = "running" then "bg-blue-500/20 text-blue-400 border-blue-500/30"
  else "bg-yellow-500/20 text-yellow-400 border-yellow-500/30"

/-- `getStatusText` from `Training.tsx` lines 225-236. -/
def getStatusText (status : String) : String :=
  if status = "completed" then "Completed"
  else if status = "failed" then "Failed"
  else if status = "running" then "Running"
  else "Pending"

end Training

namespace PreprocessingPage

/-- `getStatusIcon` from `Preprocessing.tsx` lines 300-311. -/
def getStatusIcon (status : String) : String :=
  if status = "completed" then "CheckCircle h-4 w-4 text-green-500"
  else if status = "failed" then "XCircle h-4 w-4 text-red-500"
  else if status = "running" then "Clock h-4 w-4 text-blue-500"
  else "AlertCircle h-4 w-4 text-yellow-500"

/-- `getStatusColor` from `Preprocessing.tsx` lines 313-324. -/
def getStatusColor (status : String) : String :=
  if status = "completed" then "bg-green-500/20 text-green-400 border-green-500/30"
  else if status = "failed" then "bg-red-500/20 text-red-400 border-red-500/30"
  else if status = "running" then "bg-blue-500/20 text-blue-400 border-blue-500/30"
  else "bg-yellow-500/20 text-yellow-400 border-yellow-500/30"

/-- `getStatusText` from `Preprocessing.tsx` lines 326-337. -/
def getStatusText (status : String) : String :=
  if status = "completed" then "Completed"
  else if status = "failed" then "Failed"
  else if status = "running" then "Running"
  else "Pending"

end PreprocessingPage

namespace Dashboard

/-- `getStatusIcon` from `Dashboard.tsx` lines 273-284. -/
def getStatusIcon (status : String) : String :=
  if status = "completed" then "CheckCircle h-4 w-4 text-green-500"
  else if status = "failed" then "XCircle h-4 w-4 text-red-500"
  else if status = "running" then "Clock h-4 w-4 text-blue-500"
  else "AlertCircle h-4 w-4 text-yellow-500"

/-- `getStatusColor` from `Dashboard.tsx` lines 286-297. -/
def getStatusColor (status : String) : String :=
  if status = "completed" then "bg-green-500/20 text-green-400 border-green-500/30"
  else if status = "failed" then "bg-red-500/20 text-red-400 border-red-500/30"
  else if status = "running" then "bg-blue-500/20 text-blue-400 border-blue-500/30"
  else "bg-yellow-500/20 text-yellow-400 border-yellow-500/30"

/-- `getStatusText` from `Dashboard.tsx` lines 299-310. -/
def getStatusText (status : String) : String :=
  if status = "completed" then "Completed"
  else if status = "failed" then "Failed"
  else if status = "running" then "Running"
  else "Pending"

/-- The completed-jobs count from `loadDashboardData` (`Dashboard.tsx` line
120): `allJobs.filter(job => job.status === 'completed').length`. -/
def completedJobsCount (allJobs : List TrainingJob) : Nat :=
  (allJobs.filter (fun job => job.status == "completed")).length

/-- JavaScript `Math.round` on a non-negative number: round half toward
positive infinity. -/
def mathRound (q : Rat) : Int :=
  (q + 1 / 2).floor

/-- The `Success Rate` statistic from the `stats` memo (`Dashboard.tsx` line
343): `totalJobs > 0 ? Math.round((completedJobs / totalJobs) * 100) + '%' :
'0%'`. -/
def successRateStat (completedJobs totalJobs : Nat) : String :=
  if totalJobs > 0 then
    toString (mathRound (((completedJobs : Rat) / (totalJobs : Rat)) * 100)) ++ "%"
  else "0%"

end Dashboard

namespace Reports

/-- The pure core of `loadTrainingJobs` on the Reports page
(`src/unnamed/part_003` lines 119-132): of the jobs returned by the jobs
endpoint, only those with `status === 'completed'` are stored for the
model-export selector. -/
def loadTrainingJobs (jobs : List TrainingJob) : List TrainingJob :=
  jobs.filter (fun job => job.status == "completed")

end Reports

/-! ### Job lifecycle (JobStore)

Modelled from the spec: the backend JobStore (spec section 4.5 and the Job
data model of section 3) is not part of the source tree; only its callers and
the `TrainingJob`/`PreprocessingJob` record declarations are.  The model
follows the spec's wording: status is one of pending, running, completed,
failed; a job is created pending, transitions pending to running when a worker
picks it up, and running to completed (with a result) or failed (with an error
message); terminal jobs admit no further transition. -/

/-- Modelled from the spec: the closed status vocabulary of a job. -/
inductive JobStatus
  | pending
  | running
  | completed
  | failed
deriving DecidableEq, Repr

/-- A status is terminal when it is completed or failed. -/
def JobStatus.isTerminal : JobStatus → Bool
  | .completed => true
  | .failed => true
  | _ => false

/-- Progress rank of a status along the pending-running-terminal chain. -/
def JobStatus.rank : JobStatus → Nat
  | .pending => 0
  | .running => 1
  | .completed => 2
  | .failed => 2

/-- Modelled from the spec: the two job variants (spec section 3). -/
inductive JobKind
  | preprocessing
  | training
deriving DecidableEq, Repr

/-- Modelled from the spec: a job record, with status, result payload
reference or error message, and timestamps (spec section 3; mirrored by the
frontend `PreprocessingJob` interface, `Preprocessing.tsx` lines 32-42). -/
structure Job where
  id : String
  kind : JobKind
  status : JobStatus
  result : Option String
  error : Option String
  createdAt : Nat
  completedAt : Option Nat
deriving DecidableEq, Repr

/-- Modelled from the spec: `create` builds a pending job record synchronously
(spec section 4.5), with no result and no error yet. -/
def mkJob (id : String) (kind : JobKind) (now : Nat) : Job :=
  { id := id
    kind := kind
    status := .pending
    result := none
    error := none
    createdAt := now
    completedAt := none }

/-- Modelled from the spec: the only transitions a job record undergoes.  A
worker moves a pending job to running; the engine call then either completes
the job with a result payload or fails it with an error message (spec
sections 4.5 and 7). -/
inductive JobStep : Job → Job → Prop
  | start (j : Job) (h : j.status = .pending) :
      JobStep j { j with status := .running }
  | complete (j : Job) (r : String) (t : Nat) (h : j.status = .running) :
      JobStep j { j with status := .completed, result := some r, completedAt := some t }
  | fail (j : Job) (msg : String) (t : Nat) (h : j.status = .running) :
      JobStep j { j with status := .failed, error := some msg, completedAt := some t }

/-- Reflexive-transitive closure of `JobStep`: everything status polling can
observe of a job over its lifetime. -/
inductive JobReach : Job → Job → Prop
  | refl (j : Job) : JobReach j j
  | tail {a b c : Job} : JobReach a b → JobStep b c → JobReach a c

/-- The record shape returned by status polling, `jobId -> {status, result?,
error?}` (spec section 6): the same shape for every job regardless of
status. -/
structure StatusView where
  status : JobStatus
  result : Option String
  error : Option String
deriving DecidableEq, Repr

/-- Modelled from the spec: the status-polling read path only inspects the
stored job record (spec section 5). -/
def pollStatus (j : Job) : StatusView :=
  { status := j.status, result := j.result, error := j.error }

/-- Payload invariant of a job record over its lifetime: before completion it
carries neither result nor error; a failed job carries an error message and no
result payload (spec sections 3 and 7). -/
def jobRecordInv (j : Job) : Prop :=
  (j.status = .pending → j.result = none ∧ j.error = none) ∧
  (j.status = .running → j.result = none ∧ j.error = none) ∧
  (j.status = .failed → j.result = none ∧ j.error.isSome = true)

/-! ### Transformation pipeline

Modelled from the spec: the backend TransformationPipeline (spec section 4.3)
is not part of the source tree; only its caller, the manual-preprocessing
request built in `Preprocessing.tsx` and `src/unnamed/part_002`, is.  The
model follows the spec's wording: a dataset is an immutable table with typed
columns; an operation batch executes in a fixed canonical phase order; any
operation invalid for the current dataset state aborts the whole call with an
error naming the operation and reason. -/

/-- Column data types (spec section 4.3, ChangeType targets). -/
inductive ColType
  | string
  | numeric
  | datetime
  | category
deriving DecidableEq, Repr

/-- A non-null cell value: numeric (exact rational) or textual. -/
inductive Val
  | num (q : Rat)
  | str (s : String)
deriving DecidableEq, Repr

/-- A table cell; `none` is a null. -/
abbrev Cell := Option Val

/-- Modelled from the spec: a dataset is a row/column table with named, typed
columns (spec section 3).  Rows are lists of cells aligned with the header. -/
structure Dataset where
  header : List (String × ColType)
  rows : List (List Cell)
deriving DecidableEq, Repr

def Dataset.colNames (d : Dataset) : List String :=
  d.header.map Prod.fst

def Dataset.colIdx (d : Dataset) (name : String) : Option Nat :=
  List.indexOf? name d.colNames

def Dataset.colType (d : Dataset) (name : String) : Option ColType :=
  (d.header.find? (fun h => h.fst == name)).map Prod.snd

/-- Modelled from the spec: the HandleMissing method vocabulary, {mean,
median, mode, drop_rows, forward_fill, backward_fill, constant} (spec
section 4.3). -/
inductive MissingMethod
  | mean
  | median
  | mode
  | dropRows
  | forwardFill
  | backwardFill
  | constant (value : Val)
deriving DecidableEq, Repr

/-- Modelled from the spec: the closed tagged-variant operation vocabulary
(spec section 3), as also carried by the manual-apply request
(`src/unnamed/part_002` lines 173-182). -/
inductive Operation
  | dropColumns (names : List String)
  | changeType (column : String) (target : ColType)
  | handleMissing (column : String) (method : MissingMethod)
  | encode (column : String)
  | scale (column : String)
  | balance (targetColumn : String)
deriving DecidableEq, Repr

/-- Canonical phase of an operation (spec section 4.3): drop columns, then
type conversions, then missing-value handling, then outlier handling, then
categorical encoding, then numeric scaling, then class balancing.  Phase 3
(outlier handling) has no variant in the spec's operation data model, so no
operation carries it. -/
def Operation.phase : Operation → Nat
  | .dropColumns _ => 0
  | .changeType _ _ => 1
  | .handleMissing _ _ => 2
  | .encode _ => 4
  | .scale _ => 5
  | .balance _ => 6

/-- A transformation error names the offending operation and the reason (spec
section 4.3, failure policy). -/
structure TransformationError where
  operation : Operation
  reason : String
deriving DecidableEq, Repr

/-- Cell of row `r` in column position `i` (null when out of range). -/
def cellAt (r : List Cell) (i : Nat) : Cell :=
  r.getD i none

/-- Rewrite the cell in column position `i` of a row. -/
def updateCol (r : List Cell) (i : Nat) (f : Cell → Cell) : List Cell :=
  r.mapIdx (fun j c => if j = i then f c else c)

/-- Remove the listed positions from a row (or from the header). -/
def dropIdxs {α : Type} (xs : List α) (idxs : List Nat) : List α :=
  (xs.enum.filter (fun p => decide (p.fst ∉ idxs))).map Prod.snd

/-- The non-null values of column position `i`. -/
def colValues (d : Dataset) (i : Nat) : List Val :=
  d.rows.filterMap (fun r => cellAt r i)

/-- The numeric values among a list of cell values. -/
def numValues (vs : List Val) : List Rat :=
  vs.filterMap (fun v => match v with | .num q => some q | .str _ => none)

/-- Mean of a list of rationals; `none` when the list is empty (all-null
columns are null-safe, spec section 4.1). -/
def meanQ (qs : List Rat) : Option Rat :=
  if qs.isEmpty then none else some (qs.sum / (qs.length : Rat))

/-- Median of a list of rationals; `none` when empty; the average of the two
middle elements for even lengths. -/
def medianQ (qs : List Rat) : Option Rat :=
  let sorted := qs.mergeSort (fun a b => decide (a ≤ b))
  if sorted.isEmpty then none
  else if sorted.length % 2 = 1 then some (sorted.getD (sorted.length / 2) 0)
  else some ((sorted.getD (sorted.length / 2 - 1) 0 + sorted.getD (sorted.length / 2) 0) / 2)

/-- Most frequent value, first-observed value winning ties. -/
def modeVal (vs : List Val) : Option Val :=
  vs.foldl (fun acc v =>
    match acc with
    | none => some v
    | some m => if vs.count v > vs.count m then some v else acc) none

/-- Fill the nulls of column position `i` with `fv` (no-op when `fv` is
`none`). -/
def fillNulls (rows : List (List Cell)) (i : Nat) (fv : Cell) : List (List Cell) :=
  rows.map (fun r => updateCol r i (fun c => match c with | some v => some v | none => fv))

/-- Forward fill on column position `i`: each null takes the last non-null
value above it; leading nulls stay null. -/
def ffillCol (rows : List (List Cell)) (i : Nat) : List (List Cell) :=
  (rows.foldl (fun (acc : List (List Cell) × Cell) r =>
    match cellAt r i with
    | some v => (acc.fst ++ [r], some v)
    | none => (acc.fst ++ [updateCol r i (fun _ => acc.snd)], acc.snd)) ([], none)).fst

/-- Splice: replace the element at position `i` by a list of elements. -/
def spliceAt {α : Type} (xs : List α) (i : Nat) (repl : α → List α) : List α :=
  xs.enum.flatMap (fun p => if p.fst = i then repl p.snd else [p.snd])

/-- Textual rendering of a value, used for category labels. -/
def valToString : Val → String
  | .num q => toString q
  | .str s => s

/-- Modelled from the spec: ChangeType coercion; values that fail coercion
become null (spec section 4.3).  String-to-number parsing is modelled on
integer literals; datetime parsing is abstracted (numbers pass as timestamps,
text fails). -/
def coerceVal (v : Val) (t : ColType) : Option Val :=
  match t with
  | .string => some (.str (valToString v))
  | .category => some (.str (valToString v))
  | .numeric =>
    match v with
    | .num q => some (.num q)
    | .str s => s.toInt?.map (fun n => .num (n : Rat))
  | .datetime =>
    match v with
    | .num q => some (.num q)
    | .str _ => none

/-- The distinct non-null values of column position `i`, in order of first
occurrence. -/
def classValuesAt (rows : List (List Cell)) (i : Nat) : List Val :=
  (rows.filterMap (fun r => cellAt r i)).dedup

/-- Number of rows whose column-`i` cell holds exactly the value `v`. -/
def classCountAt (rows : List (List Cell)) (i : Nat) (v : Val) : Nat :=
  rows.countP (fun r => cellAt r i == some v)

/-- `k` elements drawn cyclically from `xs` (empty when `xs` is empty). -/
def cycleTake {α : Type} (xs : List α) (k : Nat) : List α :=
  (List.range k).filterMap (fun j => xs.get? (j % xs.length))

/-- Modelled from the spec: DropColumns removes the named columns; an unknown
name is a validation error, not a no-op (spec section 4.3). -/
def applyDropColumns (d : Dataset) (op : Operation) (names : List String) :
    Except TransformationError Dataset :=
  match names.find? (fun n => !(d.colNames.contains n)) with
  | some n => .error ⟨op, "unknown column: " ++ n⟩
  | none =>
    let idxs := names.filterMap (fun n => d.colIdx n)
    .ok { header := dropIdxs d.header idxs
          rows := d.rows.map (fun r => dropIdxs r idxs) }

/-- Modelled from the spec: ChangeType coerces a column to the target type;
cells that fail coercion become null (spec section 4.3). -/
def applyChangeType (d : Dataset) (op : Operation) (col : String) (t : ColType) :
    Except TransformationError Dataset :=
  match d.colIdx col with
  | none => .error ⟨op, "unknown column: " ++ col⟩
  | some i =>
    .ok { header := d.header.map (fun h => if h.fst == col then (h.fst, t) else h)
          rows := d.rows.map (fun r => updateCol r i (fun c => c.bind (fun v => coerceVal v t))) }

/-- Modelled from the spec: HandleMissing semantics (spec section 4.3).
Mean/median apply only to numeric columns (a validation error otherwise);
drop_rows removes exactly the rows with a null in the named column; the fill
methods replace nulls and leave non-null cells untouched. -/
def applyHandleMissing (d : Dataset) (op : Operation) (col : String) (method : MissingMethod) :
    Except TransformationError Dataset :=
  match d.colIdx col with
  | none => .error ⟨op, "unknown column: " ++ col⟩
  | some i =>
    match method with
    | .mean =>
      if d.colType col ≠ some .numeric then .error ⟨op, "mean requires a numeric column"⟩
      else .ok { d with rows := fillNulls d.rows i ((meanQ (numValues (colValues d i))).map .num) }
    | .median =>
      if d.colType col ≠ some .numeric then .error ⟨op, "median requires a numeric column"⟩
      else .ok { d with rows := fillNulls d.rows i ((medianQ (numValues (colValues d i))).map .num) }
    | .mode =>
      .ok { d with rows := fillNulls d.rows i (modeVal (colValues d i)) }
    | .dropRows =>
      .ok { d with rows := d.rows.filter (fun r => (cellAt r i).isSome) }
    | .forwardFill =>
      .ok { d with rows := ffillCol d.rows i }
    | .backwardFill =>
      .ok { d with rows := (ffillCol d.rows.reverse i).reverse }
    | .constant v =>
      .ok { d with rows := fillNulls d.rows i (some v) }

/-- Modelled from the spec: one-hot expansion replaces the source column with
one numeric indicator column per observed category value, named
deterministically from the value (spec section 4.3).  Null cells yield a zero
in every indicator. -/
def applyEncode (d : Dataset) (op : Operation) (col : String) :
    Except TransformationError Dataset :=
  match d.colIdx col with
  | none => .error ⟨op, "unknown column: " ++ col⟩
  | some i =>
    let cats := ((colValues d i).map valToString).dedup
    .ok { header := spliceAt d.header i
            (fun _ => cats.map (fun c => (col ++ "_" ++ c, ColType.numeric)))
          rows := d.rows.map (fun r => spliceAt r i (fun c =>
            cats.map (fun cat =>
              some (.num (if c.map valToString = some cat then 1 else 0))))) }

/-- Modelled from the spec: standard scaling from the column's own statistics;
constant (zero-variance) and empty columns are left unscaled rather than
dividing by zero (spec section 4.3).  Because the standard deviation is
irrational in general, the numeric transform is modelled as centering; no
claim depends on the scaled magnitudes. -/
def applyScale (d : Dataset) (op : Operation) (col : String) :
    Except TransformationError Dataset :=
  match d.colIdx col with
  | none => .error ⟨op, "unknown column: " ++ col⟩
  | some i =>
    if d.colType col ≠ some .numeric then .error ⟨op, "scale requires a numeric column"⟩
    else
      let qs := numValues (colValues d i)
      match meanQ qs with
      | none => .ok d
      | some mu =>
        if (qs.map (fun q => (q - mu) * (q - mu))).sum = 0 then .ok d
        else .ok { d with rows := d.rows.map (fun r => updateCol r i (fun c =>
          c.map (fun v => match v with | .num q => .num (q - mu) | .str s => .str s))) }

/-- Modelled from the spec: Balance oversamples by synthesizing minority-class
rows until class counts are equal; only valid for a categorical (non-numeric)
target column with at least two observed classes (spec section 4.3).  The
nearest-neighbor interpolation is modelled as cyclic resampling of each
class's own rows; the claims constrain only the class counts. -/
def applyBalance (d : Dataset) (op : Operation) (tcol : String) :
    Except TransformationError Dataset :=
  match d.colIdx tcol with
  | none => .error ⟨op, "unknown column: " ++ tcol⟩
  | some i =>
    if d.colType tcol = some .numeric then
      .error ⟨op, "balance requires a categorical target column"⟩
    else
      let classes := classValuesAt d.rows i
      if classes.length < 2 then .error ⟨op, "balance requires at least two classes"⟩
      else
        let m := (classes.map (fun c => classCountAt d.rows i c)).foldl max 0
        let synth := classes.flatMap (fun c =>
          cycleTake (d.rows.filter (fun r => cellAt r i == some c))
            (m - classCountAt d.rows i c))
        .ok { d with rows := d.rows ++ synth }

/-- Modelled from the spec: dispatch one validated operation against the
current dataset state (spec sections 3 and 4.3). -/
def applyOp (d : Dataset) (op : Operation) : Except TransformationError Dataset :=
  match op with
  | .dropColumns names => applyDropColumns d (.dropColumns names) names
  | .changeType col t => applyChangeType d (.changeType col t) col t
  | .handleMissing col method => applyHandleMissing d (.handleMissing col method) col method
  | .encode col => applyEncode d (.encode col) col
  | .scale col => applyScale d (.scale col) col
  | .balance tcol => applyBalance d (.balance tcol) tcol

/-- Run a sequence of operations left to right; the first invalid operation
aborts the whole run with its error, so no partially transformed dataset is
ever returned. -/
def runOps (d : Dataset) : List Operation → Except TransformationError Dataset
  | [] => .ok d
  | op :: rest =>
    match applyOp d op with
    | .ok d2 => runOps d2 rest
    | .error e => .error e

/-- Modelled from the spec: the canonical execution order — operations are
grouped by phase in the fixed order drop, types, missing, outliers, encode,
scale, balance, and within a phase keep the order the caller listed them (spec
section 4.3, ordering policy). -/
def canonicalize (ops : List Operation) : List Operation :=
  (List.range 7).flatMap (fun p => ops.filter (fun op => op.phase = p))

namespace TransformationPipeline

/-- Modelled from the spec: `apply(dataset, operations)` executes the batch in
canonical phase order and fails atomically on the first invalid operation
(spec section 4.3). -/
def apply (d : Dataset) (ops : List Operation) : Except TransformationError Dataset :=
  runOps d (canonicalize ops)

end TransformationPipeline

/-! ### Suggestion engine

Modelled from the spec: the backend SuggestionEngine (spec section 4.2) is not
part of the source tree; only the AI-analysis response types
(`src/unnamed/part_000`) and the calling page are.  The model follows the
spec's wording: `analyze` asks the LLM provider for a structured
recommendation; if the provider is unavailable, times out, or returns content
failing schema validation, it falls back to a deterministic heuristic pass
over the column summaries, producing the same result shape.  It never
raises. -/

/-- Per-column statistics (spec section 3, ColumnSummary; mirrored by the
frontend interface in `Preprocessing.tsx` lines 52-61).  Summary statistics
are modelled at integer precision by the observed minimum and maximum. -/
structure ColumnSummary where
  name : String
  dtype : ColType
  nonNull : Nat
  nulls : Nat
  unique : Nat
  minV : Option Int := none
  maxV : Option Int := none
deriving DecidableEq, Repr

/-- The closed suggestion-kind vocabulary (spec section 3). -/
inductive SuggestionKind
  | dropColumn
  | imputeMissing
  | fixType
  | encodeCategorical
  | scaleNumeric
  | balanceClasses
deriving DecidableEq, Repr

/-- A single recommended change (spec section 3). -/
structure Suggestion where
  kind : SuggestionKind
  column : String
  method : Option String
  reason : String
deriving DecidableEq, Repr

/-- A ranked target-column candidate (spec section 4.2; mirrored by
`target_suggestions` in `src/unnamed/part_000` lines 74-79). -/
structure TargetCandidate where
  column : String
  taskType : String
  algorithms : List String
deriving DecidableEq, Repr

/-- The result shape of `analyze`, shared by the LLM path and the heuristic
fallback (spec section 4.2). -/
structure AnalysisResult where
  qualityScore : Rat
  suggestions : List Suggestion
  targetCandidates : List TargetCandidate
deriving DecidableEq, Repr

/-- Provider failure modes (spec section 6, LLM provider contract). -/
inductive ProviderError
  | timeout
  | authError
  | malformedResponse
  | unavailable
deriving DecidableEq, Repr

/-- Outcome of the provider call: parsed structured content, or a failure. -/
inductive ProviderOutcome
  | ok (response : AnalysisResult)
  | failed (e : ProviderError)
deriving DecidableEq, Repr

namespace SuggestionEngine

/-- The method vocabulary a surfaced suggestion may carry. -/
def supportedMethods : List String :=
  ["mean", "median", "mode", "drop_rows", "forward_fill", "backward_fill",
   "constant", "one_hot", "standard"]

/-- Modelled from the spec: schema validation of the provider's parsed
content — the data-quality score must lie in [0, 10] (spec section 4.2).  The
check is phrased on the reduced numerator and denominator so it is
kernel-decidable; for a normalized rational it says exactly
`0 ≤ score ≤ 10`. -/
def validSchema (r : AnalysisResult) : Bool :=
  0 ≤ r.qualityScore.num && r.qualityScore.num ≤ 10 * (r.qualityScore.den : Int)

/-- Modelled from the spec: a suggestion referencing a column not present in
the dataset, or a method outside the supported vocabulary, is dropped silently
(spec section 4.2). -/
def suggestionValid (cols : List ColumnSummary) (s : Suggestion) : Bool :=
  cols.any (fun c => c.name == s.column) &&
    (match s.method with
     | none => true
     | some m => supportedMethods.contains m)

/-- Modelled from the spec: the heuristic rules of the fallback pass for one
column summary (spec section 4.2): null ratio above 30 percent suggests
imputation; unique count at least 95 percent of the row count on a non-numeric
column suggests dropping a likely identifier; a numeric column with a value
range wider than 1000 suggests scaling.  The thresholds are modelled
constants. -/
def heuristicFor (c : ColumnSummary) : List Suggestion :=
  (if 10 * c.nulls > 3 * (c.nonNull + c.nulls) then
    [{ kind := .imputeMissing
       column := c.name
       method := some (if c.dtype = .numeric then "mean" else "mode")
       reason := "null ratio above threshold" }]
   else []) ++
  (if c.dtype ≠ .numeric ∧ 0 < c.nonNull + c.nulls ∧ 20 * c.unique ≥ 19 * (c.nonNull + c.nulls) then
    [{ kind := .dropColumn
       column := c.name
       method := none
       reason := "unique count close to row count: likely identifier" }]
   else []) ++
  (match c.minV, c.maxV with
   | some lo, some hi =>
     if c.dtype = .numeric ∧ hi - lo > 1000 then
       [{ kind := .scaleNumeric
          column := c.name
          method := some "standard"
          reason := "large scale variance" }]
     else []
   | _, _ => [])

/-- Modelled from the spec: the deterministic heuristic fallback pass.  The
quality score starts at 10 and loses one point per heuristic finding, clamped
at 0, so it always lies in [0, 10]; target candidates may be empty. -/
def heuristicAnalyze (cols : List ColumnSummary) : AnalysisResult :=
  let suggs := cols.flatMap heuristicFor
  { qualityScore := ((10 - min 10 suggs.length : Nat) : Rat)
    suggestions := suggs
    targetCandidates := [] }

/-- Modelled from the spec: `analyze(dataset, columnSummaries)` (spec
section 4.2).  A total function: a provider failure or schema-invalid content
falls back to the heuristic pass instead of raising; on valid content,
individually invalid suggestions are dropped silently. -/
def analyze (outcome : ProviderOutcome) (cols : List ColumnSummary) : AnalysisResult :=
  match outcome with
  | .failed _ => heuristicAnalyze cols
  | .ok r =>
    if validSchema r then { r with suggestions := r.suggestions.filter (suggestionValid cols) }
    else heuristicAnalyze cols

end SuggestionEngine

/-! ### Concrete fixtures

Small concrete values used to instantiate the theorems below. -/

/-- A one-element job list whose job is completed. -/
def sampleJobs : List TrainingJob :=
  [{ job_id := "job-1"
     status := "completed"
     dataset_name := "iris"
     algorithm := "random_forest"
     target_column := "species"
     task_type := "classification" }]

/-- A freshly created training job. -/
def jobPendingSample : Job := mkJob "job-1" .training 0

/-- The sample job after a worker picked it up. -/
def jobRunningSample : Job := { jobPendingSample with status := .running }

/-- The sample job after its engine call failed. -/
def jobFailedSample : Job :=
  { jobRunningSample with
    status := .failed
    error := some "TrainingError: degenerate split"
    completedAt := some 5 }

/-- Two-column dataset for the DropColumns-then-Scale scenario. -/
def c2Dataset : Dataset :=
  { header := [("id", .string), ("x", .string)]
    rows := [[some (.str "1"), some (.str "a")], [some (.str "2"), some (.str "b")]] }

/-- Two-column dataset with one null in each column: dropping the rows that
are null in `x` changes what forward fill sees in `y`. -/
def c3Dataset : Dataset :=
  { header := [("x", .string), ("y", .string)]
    rows := [[none, some (.str "one")], [some (.str "0"), none]] }

/-- A non-numeric column with one null among three rows. -/
def c4Dataset : Dataset :=
  { header := [("a", .string)]
    rows := [[some (.str "v")], [none], [some (.str "w")]] }

/-- A categorical target with class counts A:10, B:2. -/
def c6Dataset : Dataset :=
  { header := [("label", .category)]
    rows := List.replicate 10 [some (.str "A")] ++ List.replicate 2 [some (.str "B")] }

/-- The balanced result: the original 12 rows plus 8 synthesized B rows. -/
def c6Balanced : Dataset :=
  { header := [("label", .category)]
    rows := (List.replicate 10 [some (.str "A")] ++ List.replicate 2 [some (.str "B")])
      ++ List.replicate 8 [some (.str "B")] }

end Modulus

namespace Modulus

/-! ## Claim theorems -/

/-- Claim C8: the status-display helpers in the Training, Preprocessing and
Dashboard pages are total over arbitrary status strings: every input other
than completed, failed and running — including pending and any unrecognized
value — renders as the Pending text, icon and color. -/
theorem c8_status_helpers_default_to_pending (s : String)
    (h1 : s ≠ "completed") (h2 : s ≠ "failed") (h3 : s ≠ "running") :
    Training.getStatusText s = "Pending" ∧
    Training.getStatusIcon s = "AlertCircle h-4 w-4 text-yellow-500" ∧
    Training.getStatusColor s = "bg-yellow-500/20 text-yellow-400 border-yellow-500/30" ∧
    PreprocessingPage.getStatusText s = "Pending" ∧
    PreprocessingPage.getStatusIcon s = "AlertCircle h-4 w-4 text-yellow-500" ∧
    PreprocessingPage.getStatusColor s = "bg-yellow-500/20 text-yellow-400 border-yellow-500/30" ∧
    Dashboard.getStatusText s = "Pending" ∧
    Dashboard.getStatusIcon s = "AlertCircle h-4 w-4 text-yellow-500" ∧
    Dashboard.getStatusColor s = "bg-yellow-500/20 text-yellow-400 border-yellow-500/30" := by
  simp [Training.getStatusText, Training.getStatusIcon, Training.getStatusColor,
    PreprocessingPage.getStatusText, PreprocessingPage.getStatusIcon,
    PreprocessingPage.getStatusColor, Dashboard.getStatusText, Dashboard.getStatusIcon,
    Dashboard.getStatusColor, h1, h2, h3]

/-- Witness for C8 at the status string `pending`. -/
theorem c8_witness :
    Training.getStatusText "pending" = "Pending" ∧
    Training.getStatusIcon "pending" = "AlertCircle h-4 w-4 text-yellow-500" ∧
    Training.getStatusColor "pending" = "bg-yellow-500/20 text-yellow-400 border-yellow-500/30" ∧
    PreprocessingPage.getStatusText "pending" = "Pending" ∧
    PreprocessingPage.getStatusIcon "pending" = "AlertCircle h-4 w-4 text-yellow-500" ∧
    PreprocessingPage.getStatusColor "pending" = "bg-yellow-500/20 text-yellow-400 border-yellow-500/30" ∧
    Dashboard.getStatusText "pending" = "Pending" ∧
    Dashboard.getStatusIcon "pending" = "AlertCircle h-4 w-4 text-yellow-500" ∧
    Dashboard.getStatusColor "pending" = "bg-yellow-500/20 text-yellow-400 border-yellow-500/30" :=
  c8_status_helpers_default_to_pending "pending" (by decide) (by decide) (by decide)

/-- Claim C9: the Reports page stores exactly the training jobs whose status
equals completed for the model-export selector: a job is in the stored list
iff it came from the endpoint's list and its status is completed. -/
theorem c9_reports_offers_only_completed_jobs (jobs : List TrainingJob) (j : TrainingJob) :
    j ∈ Reports.loadTrainingJobs jobs ↔ j ∈ jobs ∧ j.status = "completed" := by
  simp [Reports.loadTrainingJobs, List.mem_filter]

/-- Claim C10: the Dashboard's Completed Jobs statistic counts the listed
jobs with status completed, and the Success Rate statistic equals
`round(100 * completedJobs / totalJobs)` percent when `totalJobs > 0` and the
string `0%` when `totalJobs = 0`, so the rate computation never divides by
zero. -/
theorem c10_dashboard_stats (jobs : List TrainingJob) :
    Dashboard.completedJobsCount jobs
      = (jobs.filter (fun j => j.status == "completed")).length ∧
    (0 < jobs.length →
      Dashboard.successRateStat (Dashboard.completedJobsCount jobs) jobs.length
        = toString (Dashboard.mathRound
            ((100 * (Dashboard.completedJobsCount jobs : Rat)) / (jobs.length : Rat))) ++ "%") ∧
    Dashboard.successRateStat (Dashboard.completedJobsCount jobs) 0 = "0%" := by
  refine ⟨rfl, ?_, rfl⟩
  intro h
  have harg : ((Dashboard.completedJobsCount jobs : Rat) / (jobs.length : Rat)) * 100
      = (100 * (Dashboard.completedJobsCount jobs : Rat)) / (jobs.length : Rat) := by
    ring
  simp [Dashboard.successRateStat, h, harg]

/-- Witness for C10 on a one-element completed job list. -/
theorem c10_witness :
    Dashboard.successRateStat (Dashboard.completedJobsCount sampleJobs) sampleJobs.length
      = toString (Dashboard.mathRound
          ((100 * (Dashboard.completedJobsCount sampleJobs : Rat)) / (sampleJobs.length : Rat))) ++ "%" :=
  (c10_dashboard_stats sampleJobs).2.1 (by decide)

/-- Claim C1: every observable job transition is pending to running or
running to a terminal status, the transition strictly increases the progress
rank, and no transition leaves a terminal job — so a terminal job is
immutable.  (The status field only takes the four values pending, running,
completed, failed by the `JobStatus` type itself.) -/
theorem c1_job_status_transitions (j j' : Job) (h : JobStep j j') :
    j.status.isTerminal = false ∧
    JobStatus.rank j.status < JobStatus.rank j'.status ∧
    ((j.status = .pending ∧ j'.status = .running) ∨
     (j.status = .running ∧ (j'.status = .completed ∨ j'.status = .failed))) := by
  cases h <;> simp_all [JobStatus.isTerminal, JobStatus.rank]

/-- Witness for C1: the sample pending job stepping to running. -/
theorem c1_witness :
    jobPendingSample.status.isTerminal = false ∧
    JobStatus.rank jobPendingSample.status < JobStatus.rank jobRunningSample.status ∧
    ((jobPendingSample.status = .pending ∧ jobRunningSample.status = .running) ∨
     (jobPendingSample.status = .running ∧
       (jobRunningSample.status = .completed ∨ jobRunningSample.status = .failed))) :=
  c1_job_status_transitions jobPendingSample jobRunningSample
    (JobStep.start jobPendingSample rfl)

/-- A freshly created job record satisfies the payload invariant. -/
theorem jobRecordInv_mkJob (id : String) (k : JobKind) (t : Nat) :
    jobRecordInv (mkJob id k t) := by
  simp [jobRecordInv, mkJob]

/-- Each job transition preserves the payload invariant. -/
theorem jobRecordInv_step {j j' : Job} (hinv : jobRecordInv j) (hs : JobStep j j') :
    jobRecordInv j' := by
  obtain ⟨hp, hr, _⟩ := hinv
  cases hs with
  | start hst =>
    exact ⟨fun hx => by simp at hx, fun _ => hp hst, fun hx => by simp at hx⟩
  | complete r t hst =>
    exact ⟨fun hx => by simp at hx, fun hx => by simp at hx, fun hx => by simp at hx⟩
  | fail msg t hst =>
    exact ⟨fun hx => by simp at hx, fun hx => by simp at hx, fun _ => ⟨(hr hst).1, rfl⟩⟩

/-- The payload invariant holds of every state reachable from a created
job. -/
theorem jobRecordInv_reach {a b : Job} (hinv : jobRecordInv a) (h : JobReach a b) :
    jobRecordInv b := by
  induction h with
  | refl => exact hinv
  | tail hab hbc ih => exact jobRecordInv_step ih hbc

/-- Claim C7: a failed job is inspectable through the same status-polling
read path as a completed one: for every job state reachable from creation
whose status is failed, polling returns the common `StatusView` record shape,
carrying an error string in place of a result payload. -/
theorem c7_failed_job_same_read_path (id : String) (k : JobKind) (t : Nat) (j : Job)
    (hr : JobReach (mkJob id k t) j) (hf : j.status = .failed) :
    pollStatus j = { status := .failed, result := none, error := j.error } ∧
    j.error ≠ none := by
  obtain ⟨-, -, hfail⟩ := jobRecordInv_reach (jobRecordInv_mkJob id k t) hr
  obtain ⟨hres, herr⟩ := hfail hf
  refine ⟨by simp [pollStatus, hf, hres], ?_⟩
  intro hnone
  rw [hnone] at herr
  simp at herr

/-- Witness for C7: the sample job run to failure. -/
theorem c7_witness :
    pollStatus jobFailedSample
      = { status := .failed, result := none, error := jobFailedSample.error } ∧
    jobFailedSample.error ≠ none :=
  c7_failed_job_same_read_path "job-1" .training 0 jobFailedSample
    (JobReach.tail
      (JobReach.tail (JobReach.refl jobPendingSample) (JobStep.start jobPendingSample rfl))
      (JobStep.fail jobRunningSample "TrainingError: degenerate split" 5 rfl))
    rfl

/-- Claim C5: whenever the provider call fails (unavailable, timeout, auth,
malformed) or its content fails schema validation, `analyze` does not raise:
it returns the deterministic heuristic pass over the column summaries, whose
result has the same `AnalysisResult` shape as the LLM path with a quality
score in [0, 10] and a (possibly empty) suggestion list. -/
theorem c5_analyze_falls_back (cols : List ColumnSummary) :
    (∀ e, SuggestionEngine.analyze (.failed e) cols = SuggestionEngine.heuristicAnalyze cols) ∧
    (∀ r, SuggestionEngine.validSchema r = false →
      SuggestionEngine.analyze (.ok r) cols = SuggestionEngine.heuristicAnalyze cols) ∧
    0 ≤ (SuggestionEngine.heuristicAnalyze cols).qualityScore ∧
    (SuggestionEngine.heuristicAnalyze cols).qualityScore ≤ 10 := by
  refine ⟨fun e => rfl, fun r hr => ?_, ?_, ?_⟩
  · simp [SuggestionEngine.analyze, hr]
  · show (0:Rat) ≤ ((10 - min 10 (cols.flatMap SuggestionEngine.heuristicFor).length : Nat) : Rat)
    exact Nat.cast_nonneg _
  · show ((10 - min 10 (cols.flatMap SuggestionEngine.heuristicFor).length : Nat) : Rat) ≤ 10
    have h10 : 10 - min 10 (cols.flatMap SuggestionEngine.heuristicFor).length ≤ 10 := by omega
    exact_mod_cast h10

/-- Witness for C5: content with an out-of-range quality score falls back to
the heuristic pass. -/
theorem c5_witness :
    SuggestionEngine.analyze
        (.ok { qualityScore := 11, suggestions := [], targetCandidates := [] }) []
      = SuggestionEngine.heuristicAnalyze [] :=
  (c5_analyze_falls_back []).2.1
    { qualityScore := 11, suggestions := [], targetCandidates := [] } (by decide)

/-- Every error produced by a single operation names that operation. -/
theorem applyOp_error_names (d : Dataset) (op : Operation) (e : TransformationError)
    (h : applyOp d op = .error e) : e.operation = op := by
  cases op with
  | dropColumns names =>
    simp only [applyOp, applyDropColumns] at h
    repeat' split at h
    all_goals first | (simp only [Except.error.injEq] at h; rw [← h]) | simp at h
  | changeType col t =>
    simp only [applyOp, applyChangeType] at h
    repeat' split at h
    all_goals first | (simp only [Except.error.injEq] at h; rw [← h]) | simp at h
  | handleMissing col method =>
    simp only [applyOp, applyHandleMissing] at h
    repeat' split at h
    all_goals first | (simp only [Except.error.injEq] at h; rw [← h]) | simp at h
  | encode col =>
    simp only [applyOp, applyEncode] at h
    repeat' split at h
    all_goals first | (simp only [Except.error.injEq] at h; rw [← h]) | simp at h
  | scale col =>
    simp only [applyOp, applyScale] at h
    repeat' split at h
    all_goals first | (simp only [Except.error.injEq] at h; rw [← h]) | simp at h
  | balance tcol =>
    simp only [applyOp, applyBalance] at h
    repeat' split at h
    all_goals first | (simp only [Except.error.injEq] at h; rw [← h]) | simp at h

/-- When a run of operations fails, the error comes from an operation of the
run. -/
theorem runOps_error_mem (l : List Operation) :
    ∀ (d : Dataset) (e : TransformationError),
      runOps d l = .error e → ∃ op ∈ l, e.operation = op := by
  induction l with
  | nil => intro d e h; simp [runOps] at h
  | cons op rest ih =>
    intro d e h
    simp only [runOps] at h
    cases happ : applyOp d op with
    | ok d2 =>
      rw [happ] at h
      obtain ⟨o, ho, he⟩ := ih d2 e h
      exact ⟨o, List.mem_cons_of_mem op ho, he⟩
    | error e2 =>
      rw [happ] at h
      simp only [Except.error.injEq] at h
      subst h
      exact ⟨op, List.mem_cons_self op rest, applyOp_error_names d op e2 happ⟩

/-- Canonicalization never invents operations. -/
theorem canonicalize_mem {op : Operation} {ops : List Operation}
    (h : op ∈ canonicalize ops) : op ∈ ops := by
  simp only [canonicalize, List.mem_flatMap] at h
  obtain ⟨p, -, hp⟩ := h
  exact (List.mem_filter.mp hp).1

/-- Claim C2: an operation batch fails atomically — the error case of `apply`
returns no dataset at all — and the error names the offending operation; in
particular dropping `id` and scaling `id` in the same batch fails with a
`TransformationError` naming `id` as unknown rather than silently
skipping. -/
theorem c2_atomic_failure_names_operation :
    TransformationPipeline.apply c2Dataset [.dropColumns ["id"], .scale "id"]
      = .error { operation := .scale "id", reason := "unknown column: id" } ∧
    ∀ (d : Dataset) (ops : List Operation) (e : TransformationError),
      TransformationPipeline.apply d ops = .error e → e.operation ∈ ops := by
  refine ⟨by decide, fun d ops e h => ?_⟩
  obtain ⟨o, ho, he⟩ := runOps_error_mem (canonicalize ops) d e h
  rw [he]
  exact canonicalize_mem ho

/-- Witness for C2: the offending operation named by the scenario's error is
one of the submitted operations. -/
theorem c2_witness :
    (Operation.scale "id") ∈ ([.dropColumns ["id"], .scale "id"] : List Operation) :=
  c2_atomic_failure_names_operation.2 c2Dataset [.dropColumns ["id"], .scale "id"]
    { operation := .scale "id", reason := "unknown column: id" } (by decide)

/-- Congruence for `flatMap` over pointwise-equal bucket functions. -/
theorem flatMap_congr_mem {α β : Type} {l : List α} {f g : α → List β}
    (h : ∀ a ∈ l, f a = g a) : l.flatMap f = l.flatMap g := by
  induction l with
  | nil => rfl
  | cons a t ih =>
    simp only [List.flatMap_cons]
    rw [h a (List.mem_cons_self a t), ih (fun x hx => h x (List.mem_cons_of_mem a hx))]

/-- Concatenating phase buckets in increasing phase order yields a list
sorted by phase. -/
theorem phase_flatMap_pairwise (l : List Nat) (f : Nat → List Operation)
    (hl : l.Pairwise (· ≤ ·))
    (hmem : ∀ p, ∀ op ∈ f p, Operation.phase op = p) :
    (l.flatMap f).Pairwise (fun a b => a.phase ≤ b.phase) := by
  induction l with
  | nil => simp
  | cons p t ih =>
    simp only [List.flatMap_cons]
    rw [List.pairwise_append]
    refine ⟨?_, ih (List.pairwise_cons.mp hl).2, ?_⟩
    · exact List.pairwise_of_forall_mem_list
        (fun a ha b hb => by rw [hmem p a ha, hmem p b hb])
    · intro a ha b hb
      obtain ⟨q, hq, hbq⟩ := List.mem_flatMap.mp hb
      rw [hmem p a ha, hmem q b hbq]
      exact (List.pairwise_cons.mp hl).1 q hq

/-- The canonicalized batch is sorted by phase. -/
theorem canonicalize_sorted (ops : List Operation) :
    (canonicalize ops).Pairwise (fun a b => a.phase ≤ b.phase) := by
  refine phase_flatMap_pairwise _ _ ((List.pairwise_lt_range 7).imp (fun h => le_of_lt h)) ?_
  intro p o ho
  exact of_decide_eq_true (List.mem_filter.mp ho).2

/-- Claim C3 (amended): the pipeline executes a batch in the fixed canonical
phase order — the executed sequence is sorted by phase — and the output
depends only on the per-phase subsequences, so two batches containing the
same operations in different submission orders produce the same output
dataset provided they list the operations of each phase in the same relative
order. -/
theorem c3_canonical_order_determinism (d : Dataset) (ops1 ops2 : List Operation)
    (h : ∀ p < 7, ops1.filter (fun op => op.phase = p) = ops2.filter (fun op => op.phase = p)) :
    (canonicalize ops1).Pairwise (fun a b => a.phase ≤ b.phase) ∧
    TransformationPipeline.apply d ops1 = TransformationPipeline.apply d ops2 := by
  refine ⟨canonicalize_sorted ops1, ?_⟩
  unfold TransformationPipeline.apply
  congr 1
  unfold canonicalize
  exact flatMap_congr_mem (fun p hp => h p (List.mem_range.mp hp))

/-- Counterexample for C3 as stated: two batches containing the same
operations in different submission orders — dropping the rows that are null
in `x`, and forward-filling `y` — produce different output datasets, because
both operations fall in the missing-value phase and the caller-listed order
within a phase is preserved. -/
theorem c3_counterexample :
    TransformationPipeline.apply c3Dataset
        [.handleMissing "x" .dropRows, .handleMissing "y" .forwardFill]
      ≠ TransformationPipeline.apply c3Dataset
        [.handleMissing "y" .forwardFill, .handleMissing "x" .dropRows] := by
  decide

/-- Witness for C3 (amended): reordering operations across phases does not
change the output. -/
theorem c3_witness :
    TransformationPipeline.apply c2Dataset [Operation.scale "x", Operation.dropColumns ["y"]]
      = TransformationPipeline.apply c2Dataset [Operation.dropColumns ["y"], Operation.scale "x"] :=
  (c3_canonical_order_determinism c2Dataset
    [Operation.scale "x", Operation.dropColumns ["y"]]
    [Operation.dropColumns ["y"], Operation.scale "x"] (by decide)).2

/-- Claim C4: the HandleMissing method set is exactly {mean, median, mode,
drop_rows, forward_fill, backward_fill, constant}; applying mean or median to
a non-numeric column is a validation error; and drop_rows removes exactly the
rows with a null in the named column, leaving all other rows. -/
theorem c4_handle_missing_methods :
    (∀ m : MissingMethod,
      m = .mean ∨ m = .median ∨ m = .mode ∨ m = .dropRows ∨
      m = .forwardFill ∨ m = .backwardFill ∨ ∃ v, m = .constant v) ∧
    (∀ (d : Dataset) (col : String) (i : Nat),
      d.colIdx col = some i → d.colType col ≠ some .numeric →
      applyOp d (.handleMissing col .mean)
        = .error { operation := .handleMissing col .mean
                   reason := "mean requires a numeric column" } ∧
      applyOp d (.handleMissing col .median)
        = .error { operation := .handleMissing col .median
                   reason := "median requires a numeric column" }) ∧
    (∀ (d : Dataset) (col : String) (i : Nat),
      d.colIdx col = some i →
      applyOp d (.handleMissing col .dropRows)
        = .ok { d with rows := d.rows.filter (fun r => (cellAt r i).isSome) }) := by
  refine ⟨fun m => ?_, fun d col i hi ht => ?_, fun d col i hi => ?_⟩
  · cases m <;> simp
  · constructor <;> simp [applyOp, applyHandleMissing, hi, ht]
  · simp [applyOp, applyHandleMissing, hi]

/-- Witness for C4: on the sample non-numeric column, mean is rejected and
drop_rows keeps exactly the non-null rows. -/
theorem c4_witness :
    (applyOp c4Dataset (.handleMissing "a" .mean)
      = .error { operation := .handleMissing "a" .mean
                 reason := "mean requires a numeric column" }) ∧
    (applyOp c4Dataset (.handleMissing "a" .dropRows)
      = .ok { c4Dataset with rows := c4Dataset.rows.filter (fun r => (cellAt r 0).isSome) }) :=
  ⟨(c4_handle_missing_methods.2.1 c4Dataset "a" 0 (by decide) (by decide)).1,
   c4_handle_missing_methods.2.2 c4Dataset "a" 0 (by decide)⟩

/-- A `filterMap` whose function succeeds on every element preserves the
length. -/
theorem length_filterMap_of_isSome {α β : Type} (l : List α) (f : α → Option β)
    (h : ∀ a ∈ l, (f a).isSome = true) : (l.filterMap f).length = l.length := by
  induction l with
  | nil => rfl
  | cons a t ih =>
    rw [List.filterMap_cons]
    cases hfa : f a with
    | none =>
      have := h a (List.mem_cons_self a t)
      rw [hfa] at this
      simp at this
    | some b =>
      simp only [List.length_cons]
      rw [ih (fun x hx => h x (List.mem_cons_of_mem a hx))]

/-- Cyclic sampling from a nonempty list yields exactly `k` elements. -/
theorem cycleTake_length {α : Type} (xs : List α) (k : Nat) (hxs : xs ≠ []) :
    (cycleTake xs k).length = k := by
  unfold cycleTake
  rw [length_filterMap_of_isSome, List.length_range]
  intro j hj
  have hlen : 0 < xs.length := List.length_pos.mpr hxs
  rw [List.get?_eq_get (Nat.mod_lt j hlen)]
  rfl

/-- Cyclic sampling only produces elements of the source list. -/
theorem cycleTake_mem {α : Type} {xs : List α} {k : Nat} {y : α}
    (h : y ∈ cycleTake xs k) : y ∈ xs := by
  unfold cycleTake at h
  obtain ⟨j, -, hj⟩ := List.mem_filterMap.mp h
  exact List.get?_mem hj

/-- Counting over a `flatMap` sums the per-bucket counts. -/
theorem countP_flatMap {α β : Type} (p : β → Bool) (l : List α) (f : α → List β) :
    (l.flatMap f).countP p = (l.map (fun a => (f a).countP p)).sum := by
  induction l with
  | nil => rfl
  | cons a t ih =>
    simp only [List.flatMap_cons, List.countP_append, List.map_cons, List.sum_cons, ih]

/-- Summing an indicator-style map over a duplicate-free list picks out the
single matching element. -/
theorem sum_map_ite_single {α : Type} [DecidableEq α] {l : List α} {c : α}
    (hn : l.Nodup) (hc : c ∈ l) (f : α → Nat) :
    (l.map (fun x => if x = c then f x else 0)).sum = f c := by
  induction l with
  | nil => cases hc
  | cons a t ih =>
    simp only [List.map_cons, List.sum_cons]
    rcases List.mem_cons.mp hc with h | h
    · subst h
      rw [if_pos rfl]
      have hnotin : c ∉ t := (List.nodup_cons.mp hn).1
      have hz : (t.map (fun x => if x = c then f x else 0)).sum = 0 := by
        apply List.sum_eq_zero
        intro x hx
        obtain ⟨y, hy, hyx⟩ := List.mem_map.mp hx
        rw [if_neg (fun hyc : y = c => hnotin (hyc ▸ hy))] at hyx
        exact hyx.symm
      rw [hz, Nat.add_zero]
    · have hne : a ≠ c := fun hac => (List.nodup_cons.mp hn).1 (hac ▸ h)
      rw [if_neg hne, ih (List.nodup_cons.mp hn).2 h, Nat.zero_add]

/-- Every member of a list is bounded by its max fold. -/
theorem le_foldl_max (l : List Nat) (a : Nat) (ha : a ∈ l) : a ≤ l.foldl max 0 := by
  have key : ∀ (l2 : List Nat) (b : Nat), (a ∈ l2 ∨ a ≤ b) → a ≤ l2.foldl max b := by
    intro l2
    induction l2 with
    | nil =>
      intro b h
      rcases h with h | h
      · cases h
      · simpa using h
    | cons x t ih =>
      intro b h
      simp only [List.foldl_cons]
      apply ih
      rcases h with h | h
      · rcases List.mem_cons.mp h with h | h
        · right; subst h; exact le_max_right b a
        · left; exact h
      · right; exact le_trans h (le_max_left b x)
  exact key l 0 (Or.inl ha)

/-- Appending the synthesized minority rows raises every observed class to the
maximal class count. -/
theorem balance_rows_count (rows : List (List Cell)) (i : Nat) (c : Val)
    (hc : c ∈ classValuesAt rows i) :
    classCountAt
        (rows ++ (classValuesAt rows i).flatMap (fun c2 =>
          cycleTake (rows.filter (fun r => cellAt r i == some c2))
            (((classValuesAt rows i).map (fun c2 => classCountAt rows i c2)).foldl max 0
              - classCountAt rows i c2))) i c
      = ((classValuesAt rows i).map (fun c2 => classCountAt rows i c2)).foldl max 0 := by
  have hcf : c ∈ rows.filterMap (fun r => cellAt r i) := List.mem_dedup.mp hc
  obtain ⟨r0, hr0, hcell0⟩ := List.mem_filterMap.mp hcf
  have hfilter_ne : rows.filter (fun r => cellAt r i == some c) ≠ [] :=
    List.ne_nil_of_mem (List.mem_filter.mpr ⟨hr0, by simp [hcell0]⟩)
  have hnodup : (classValuesAt rows i).Nodup := List.nodup_dedup _
  have hle : classCountAt rows i c
      ≤ ((classValuesAt rows i).map (fun c2 => classCountAt rows i c2)).foldl max 0 :=
    le_foldl_max _ _ (List.mem_map_of_mem _ hc)
  set cls := classValuesAt rows i with hcls
  set m := (cls.map (fun c2 => classCountAt rows i c2)).foldl max 0 with hm
  set synth := cls.flatMap (fun c2 =>
    cycleTake (rows.filter (fun r => cellAt r i == some c2))
      (m - classCountAt rows i c2)) with hsynth
  have hbucket : ∀ c2 ∈ cls,
      (cycleTake (rows.filter (fun r => cellAt r i == some c2))
        (m - classCountAt rows i c2)).countP (fun r => cellAt r i == some c)
      = if c2 = c then m - classCountAt rows i c2 else 0 := by
    intro c2 hc2
    by_cases hcc : c2 = c
    · subst hcc
      have hall : ∀ r ∈ cycleTake (rows.filter (fun r => cellAt r i == some c2))
          (m - classCountAt rows i c2), (cellAt r i == some c2) = true :=
        fun r hr => (List.mem_filter.mp (cycleTake_mem hr)).2
      rw [if_pos rfl, List.countP_eq_length.mpr hall]
      exact cycleTake_length _ _ hfilter_ne
    · rw [if_neg hcc]
      apply List.countP_eq_zero.mpr
      intro r hr
      have h2 : cellAt r i = some c2 := by
        simpa using (List.mem_filter.mp (cycleTake_mem hr)).2
      simp [h2, hcc]
  have h1 : classCountAt (rows ++ synth) i c
      = classCountAt rows i c + synth.countP (fun r => cellAt r i == some c) :=
    List.countP_append _ _ _
  have h2 : synth.countP (fun r => cellAt r i == some c)
      = (cls.map (fun c2 =>
          (cycleTake (rows.filter (fun r => cellAt r i == some c2))
            (m - classCountAt rows i c2)).countP (fun r => cellAt r i == some c))).sum := by
    rw [hsynth]
    exact countP_flatMap _ _ _
  rw [h1, h2, List.map_congr_left hbucket, sum_map_ite_single hnodup hc]
  omega

/-- Claim C6: on a dataset whose (non-numeric) target column has at least two
observed classes, a successful Balance raises every class count to the
maximal class count — so all post-balance class counts are equal. -/
theorem c6_balance_equalizes_class_counts (d : Dataset) (tcol : String) (i : Nat)
    (d' : Dataset) (hi : d.colIdx tcol = some i)
    (h : applyOp d (.balance tcol) = .ok d') :
    (∀ c ∈ classValuesAt d.rows i,
      classCountAt d'.rows i c
        = ((classValuesAt d.rows i).map (fun c2 => classCountAt d.rows i c2)).foldl max 0) ∧
    (∀ c1 ∈ classValuesAt d.rows i, ∀ c2 ∈ classValuesAt d.rows i,
      classCountAt d'.rows i c1 = classCountAt d'.rows i c2) := by
  have main : ∀ c ∈ classValuesAt d.rows i,
      classCountAt d'.rows i c
        = ((classValuesAt d.rows i).map (fun c2 => classCountAt d.rows i c2)).foldl max 0 := by
    intro c hc
    simp only [applyOp, applyBalance, hi] at h
    split at h
    · simp at h
    · split at h
      · simp at h
      · simp only [Except.ok.injEq] at h
        subst h
        exact balance_rows_count d.rows i c hc
  exact ⟨main, fun c1 h1 c2 h2 => by rw [main c1 h1, main c2 h2]⟩

/-- Witness for C6: balancing class counts A:10, B:2 yields |A| = |B|. -/
theorem c6_witness :
    classCountAt c6Balanced.rows 0 (.str "A") = classCountAt c6Balanced.rows 0 (.str "B") :=
  (c6_balance_equalizes_class_counts c6Dataset "label" 0 c6Balanced
      (by decide) (by decide)).2
    (.str "A") (by decide) (.str "B") (by decide)

end Modulus
